import Mathlib

/-!
Verification development for the melfina proof-of-existence service.

The embedding follows `src/src/main.js` (the management script: environment
parsing, the manually-signed transaction submission engine `sendTransaction`
with its retry and polling logic, and the HTTP handlers `notarize` and
`verify`) together with the on-ledger contract
`ProofOfExistence` (`notarize` / `verify` with the `OnNotarize` / `OnVerify`
events). Asynchronous promise settlement is embedded as a run over the ordered
list of transport events of each attempt: a promise settles at the first
resolving or rejecting action and later events do not change its value.
-/

namespace Melfina

/-! ### Substring matching

`error.indexOf(pat) > -1` in the JavaScript source: a naive substring test
over the character lists of the two strings. -/

/-- Does the candidate list start with the pattern list? -/
def headMatches : List Char → List Char → Bool
  | [], _ => true
  | _ :: _, [] => false
  | p :: ps, c :: cs => p == c && headMatches ps cs

/-- Does the haystack contain the pattern as a contiguous sublist? -/
def hasSubList (pat : List Char) : List Char → Bool
  | [] => pat.isEmpty
  | c :: cs => headMatches pat (c :: cs) || hasSubList pat cs

/-- JavaScript `s.indexOf(pat) > -1`. -/
def strContains (s pat : String) : Bool :=
  hasSubList pat.data s.data

/-- The timeout condition of `sendTransaction`: the error text mentions the
fixed-blocks timeout of the older RPC client (`'within 50 blocks'`). -/
def isTimeoutErr (e : String) : Bool :=
  strContains e "within 50 blocks"

/-- The transient condition of `sendTransaction`: the error text mentions
`'known transaction'` or `'underpriced'`. -/
def isRetryableErr (e : String) : Bool :=
  strContains e "known transaction" || strContains e "underpriced"

/-! ### The digest

Both handlers compute `shajs('sha256').update(value).digest('hex')`: the
SHA-256 digest of the UTF-8 bytes of the value, rendered as lowercase hex.
The `sha.js` library is an external collaborator; it is embedded here as
SHA-256 itself (FIPS 180-4), word arithmetic on `Nat` modulo `2 ^ 32`. -/

/-- Word arithmetic is modulo `2 ^ 32`. -/
def w32 : Nat := 4294967296

/-- Right rotation of a 32-bit word. -/
def rotr32 (n x : Nat) : Nat :=
  ((x >>> n) ||| (x <<< (32 - n))) % w32

/-- Message-schedule sigma-0. -/
def ssig0 (x : Nat) : Nat := rotr32 7 x ^^^ rotr32 18 x ^^^ (x >>> 3)

/-- Message-schedule sigma-1. -/
def ssig1 (x : Nat) : Nat := rotr32 17 x ^^^ rotr32 19 x ^^^ (x >>> 10)

/-- Round function big-sigma-0. -/
def bsig0 (x : Nat) : Nat := rotr32 2 x ^^^ rotr32 13 x ^^^ rotr32 22 x

/-- Round function big-sigma-1. -/
def bsig1 (x : Nat) : Nat := rotr32 6 x ^^^ rotr32 11 x ^^^ rotr32 25 x

/-- Choice function of the SHA-256 round. -/
def chFun (x y z : Nat) : Nat := (x &&& y) ^^^ ((x ^^^ (w32 - 1)) &&& z)

/-- Majority function of the SHA-256 round. -/
def majFun (x y z : Nat) : Nat := (x &&& y) ^^^ (x &&& z) ^^^ (y &&& z)

/-- The 64 SHA-256 round constants. -/
def sha256K : List Nat :=
  [1116352408, 1899447441, 3049323471, 3921009573,
   961987163, 1508970993, 2453635748, 2870763221,
   3624381080, 310598401, 607225278, 1426881987,
   1925078388, 2162078206, 2614888103, 3248222580,
   3835390401, 4022224774, 264347078, 604807628,
   770255983, 1249150122, 1555081692, 1996064986,
   2554220882, 2821834349, 2952996808, 3210313671,
   3336571891, 3584528711, 113926993, 338241895,
   666307205, 773529912, 1294757372, 1396182291,
   1695183700, 1986661051, 2177026350, 2456956037,
   2730485921, 2820302411, 3259730800, 3345764771,
   3516065817, 3600352804, 4094571909, 275423344,
   430227734, 506948616, 659060556, 883997877,
   958139571, 1322822218, 1537002063, 1747873779,
   1955562222, 2024104815, 2227730452, 2361852424,
   2428436474, 2756734187, 3204031479, 3329325298]

/-- The eight 32-bit words of the SHA-256 hash state. -/
structure Sha256State where
  h0 : Nat
  h1 : Nat
  h2 : Nat
  h3 : Nat
  h4 : Nat
  h5 : Nat
  h6 : Nat
  h7 : Nat
deriving DecidableEq, Repr

/-- The SHA-256 initial hash value. -/
def sha256Init : Sha256State :=
  ⟨1779033703, 3144134277, 1013904242, 2773480762,
   1359893119, 2600822924, 528734635, 1541459225⟩

/-- Big-endian assembly of four bytes into a 32-bit word. -/
def bytesToWords : List Nat → List Nat
  | a :: b :: c :: d :: rest => (((a * 256 + b) * 256 + c) * 256 + d) :: bytesToWords rest
  | _ => []

/-- Extend the 16 chunk words to the 64 words of the message schedule. -/
def extendWords (ws : Array Nat) : Array Nat :=
  (List.range 48).foldl (fun acc i =>
    let t := i + 16
    acc.push ((ssig1 (acc.getD (t - 2) 0) + acc.getD (t - 7) 0 +
      ssig0 (acc.getD (t - 15) 0) + acc.getD (t - 16) 0) % w32)) ws

/-- One SHA-256 compression round over the working variables. -/
def sha256Round (ws : Array Nat) (t : Sha256State) (i : Nat) : Sha256State :=
  let k := sha256K.getD i 0
  let w := ws.getD i 0
  let t1 := (t.h7 + bsig1 t.h4 + chFun t.h4 t.h5 t.h6 + k + w) % w32
  let t2 := (bsig0 t.h0 + majFun t.h0 t.h1 t.h2) % w32
  ⟨(t1 + t2) % w32, t.h0, t.h1, t.h2, (t.h3 + t1) % w32, t.h4, t.h5, t.h6⟩

/-- Compress one 64-byte chunk into the hash state. -/
def sha256Compress (st : Sha256State) (chunk : List Nat) : Sha256State :=
  let ws := extendWords (bytesToWords chunk).toArray
  let v := (List.range 64).foldl (sha256Round ws) st
  ⟨(st.h0 + v.h0) % w32, (st.h1 + v.h1) % w32, (st.h2 + v.h2) % w32,
   (st.h3 + v.h3) % w32, (st.h4 + v.h4) % w32, (st.h5 + v.h5) % w32,
   (st.h6 + v.h6) % w32, (st.h7 + v.h7) % w32⟩

/-- SHA-256 padding: a 0x80 byte, zeros, and the 64-bit big-endian bit length. -/
def sha256Pad (msg : List Nat) : List Nat :=
  let bitLen := 8 * msg.length
  let zeros := (64 - (msg.length + 9) % 64) % 64
  msg ++ [128] ++ List.replicate zeros 0 ++
    (List.range 8).map (fun i => (bitLen >>> (8 * (7 - i))) % 256)

/-- Split a byte list into 64-byte chunks; the first argument is structural
fuel, in use always the length of the list. -/
def chunk64Aux : Nat → List Nat → List (List Nat)
  | 0, _ => []
  | _ + 1, [] => []
  | n + 1, a :: rest => ((a :: rest).take 64) :: chunk64Aux n ((a :: rest).drop 64)

/-- Split a byte list into 64-byte chunks. -/
def chunk64 (l : List Nat) : List (List Nat) :=
  chunk64Aux l.length l

/-- SHA-256 of a byte list, as the final eight-word hash state. -/
def sha256Words (msg : List Nat) : Sha256State :=
  (chunk64 (sha256Pad msg)).foldl sha256Compress sha256Init

/-- The sixteen lowercase hex digits. -/
def hexChars : List Char :=
  "0123456789abcdef".data

/-- One lowercase hex digit. -/
def hexDigit (n : Nat) : Char := hexChars.getD (n % 16) '0'

/-- The eight hex characters of one 32-bit word, most significant first. -/
def hexWordChars (w : Nat) : List Char :=
  (List.range 8).map (fun i => hexDigit (w >>> (28 - 4 * i)))

/-- Lowercase hex rendering of a SHA-256 hash state, 64 characters. -/
def sha256Hex (msg : List Nat) : String :=
  let s := sha256Words msg
  String.mk (hexWordChars s.h0 ++ hexWordChars s.h1 ++ hexWordChars s.h2 ++
    hexWordChars s.h3 ++ hexWordChars s.h4 ++ hexWordChars s.h5 ++
    hexWordChars s.h6 ++ hexWordChars s.h7)

/-- The UTF-8 bytes of a string, as `sha.js` consumes them. This is
`String.toUTF8` written over lists, so that it evaluates inside the kernel. -/
def utf8Bytes (s : String) : List Nat :=
  (s.data.flatMap String.utf8EncodeChar).map (fun b => b.toNat)

/-- The digest computed by the `notarize` handler:
`shajs('sha256').update(value).digest('hex')`. -/
def notarizeDigest (value : String) : String :=
  sha256Hex (utf8Bytes value)

/-- The digest computed by the `verify` handler:
`shajs('sha256').update(value).digest('hex')` (the same expression,
duplicated in the source exactly as here). -/
def verifyDigest (value : String) : String :=
  sha256Hex (utf8Bytes value)

/-! ### Environment configuration

`parseEnv` in `src/src/main.js`: the four required variables are filtered for
JavaScript-falsy values (`undefined` or the empty string), and a single error
listing every missing name is thrown before anything else runs. The
environment is a partial map from names to values; `none` is an unset
variable. -/

/-- The required environment variable names, in source order. -/
def requiredEnvKeys : List String :=
  ["ETH_ADDRESS", "ETH_KEYFILE", "ETH_PASSWORD", "ETH_PROVIDER"]

/-- JavaScript truthiness of `process.env[key]`: set and not the empty
string. -/
def envTruthy : Option String → Bool
  | none => false
  | some v => !(v == "")

/-- The required names that are missing, in source order:
`[...].filter(key => !process.env[key])`. -/
def missingEnvKeys (env : String → Option String) : List String :=
  requiredEnvKeys.filter (fun k => !envTruthy (env k))

/-- The configuration the module-level destructuring extracts from the
environment. -/
structure Config where
  contractAddress : Option String
  address : String
  keyfile : String
  password : String
  provider : String
deriving DecidableEq, Repr

/-- `parseEnv`: throw one combined error when any required name is missing,
otherwise the destructured configuration (`CONTRACT_ADDRESS` defaults to
null, `ETH_PROVIDER` to the local node URL). -/
def parseEnv (env : String → Option String) : Except String Config :=
  match missingEnvKeys env with
  | [] => Except.ok
      { contractAddress := env "CONTRACT_ADDRESS"
        address := (env "ETH_ADDRESS").getD ""
        keyfile := (env "ETH_KEYFILE").getD ""
        password := (env "ETH_PASSWORD").getD ""
        provider := (env "ETH_PROVIDER").getD "http://localhost:8545" }
  | ks => Except.error (String.intercalate ", " ks ++ " environment variables must be set")

/-- What the management script does after its module-level configuration
succeeded: run the deploy task or start serving on port 1337. -/
inductive BootResult where
  | deployed
  | serving (port : Nat)
deriving DecidableEq, Repr

/-- Startup: the environment is parsed first, so a missing required variable
prevents the server from ever serving. -/
def boot (env : String → Option String) (task : String) : Except String BootResult :=
  (parseEnv env).map (fun _ =>
    if task == "deploy" then BootResult.deployed else BootResult.serving 1337)

/-! ### The transaction envelope

`new Tx({data, gasLimit, gasPrice, nonce, to})` in `sendTransaction`. The ABI
encoding of the call is delegated to library code; it is embedded as the
structured call data itself, a function of the method name and arguments
only. -/

/-- The encoded call payload: a contract method call, or the init code of a
deploy (`contract.deploy(params[0])`). -/
inductive CallData where
  | methodCall (methodName : String) (params : List String)
  | deployData (init : String)
deriving DecidableEq, Repr

/-- The public methods of the `ProofOfExistence` contract interface, from its
ABI: `contract.methods` has exactly these. -/
def contractMethods : List String := ["notarize", "verify"]

/-- `const deploy = !contract.methods[methodName]`. -/
def isDeploy (methodName : String) : Bool :=
  !(contractMethods.contains methodName)

/-- `contract.options.address || undefined`: the configured contract address,
with a JavaScript-falsy (absent or empty) address becoming undefined. -/
def contractOptionAddress : Option String → Option String
  | none => none
  | some a => if a == "" then none else some a

/-- The transaction envelope of one attempt. -/
structure TxEnvelope where
  data : CallData
  gasLimit : Nat
  gasPrice : Nat
  nonce : Nat
  toAddr : Option String
deriving DecidableEq, Repr

/-- Build the envelope of one attempt, as `sendTransaction` does. -/
def buildTx (cfg : Config) (methodName : String) (params : List String) (nonce : Nat) :
    TxEnvelope :=
  { data := if isDeploy methodName then CallData.deployData (params.headD "")
      else CallData.methodCall methodName params
    gasLimit := 400000
    gasPrice := 20000000000
    nonce := nonce
    toAddr := contractOptionAddress cfg.contractAddress }

/-! ### The submission engine

`sendTransaction` submits the signed envelope and reacts to the transport's
events. Signing and serialization are injective library steps, so within one
logical request the envelope determines the submitted transaction; the world
maps each envelope to the ordered events its submission produces. A promise
settles at its first resolving or rejecting action. -/

/-- A decoded Solidity value as `abi-decoder` returns it. -/
inductive EthVal where
  | str (s : String)
  | boolean (b : Bool)
deriving DecidableEq, Repr

/-- A raw log entry of a receipt. ABI encoding and decoding are delegated to
library code, so a log is embedded as the event name and its named argument
values; `abi-decoder` recovers exactly these against the contract ABI. -/
structure ReceiptLog where
  eventName : String
  args : List (String × EthVal)
deriving DecidableEq, Repr

/-- A receipt as the handlers consume it: the transaction hash and the
emitted log entries. -/
structure Receipt where
  transactionHash : String
  logs : List ReceiptLog
deriving DecidableEq, Repr

/-- An event the transport can emit for a submitted transaction:
`transactionHash`, `error`, or `receipt`. -/
inductive Ev where
  | txHash (h : String)
  | error (e : String)
  | rcpt (r : Receipt)
deriving DecidableEq, Repr

/-- What a settled submission resolved with: the bare hash (early
resolution) or a receipt. -/
inductive Outcome where
  | hash (h : String)
  | rcpt (r : Receipt)
deriving DecidableEq, Repr

/-- The remote ledger RPC as `sendTransaction` consumes it: the account's
current transaction count, the events each submitted envelope produces, and
the receipt-by-hash query, indexed by the poll tick (the hash argument is
optional because the code can pass an undefined `txHash`). -/
structure World where
  txCount : Nat
  transport : TxEnvelope → List Ev
  receipts : Option String → Nat → Option Receipt

/-- The interval of the receipt poll, in milliseconds: `setTimeout(tick, 1000)`. -/
def pollIntervalMs : Nat := 1000

/-- `pollTransaction`: query the receipt at ticks `start, start + 1, ...`
until one is non-null, pairing the receipt with the elapsed milliseconds;
`fuel` bounds how far this run is unrolled, `none` means the promise has not
resolved within it. -/
def pollTxTimed (oracle : Nat → Option Receipt) : Nat → Nat → Option (Receipt × Nat)
  | _, 0 => none
  | start, fuel + 1 =>
    match oracle start with
    | some r => some (r, pollIntervalMs * start)
    | none => pollTxTimed oracle (start + 1) fuel

/-- The receipt `pollTransaction` resolves with, if any, within `fuel` ticks. -/
def pollTx (oracle : Nat → Option Receipt) (fuel : Nat) : Option Receipt :=
  (pollTxTimed oracle 0 fuel).map Prod.fst

deriving instance DecidableEq for Except

/-- The result of one logical `sendTransaction` request: the nonces attempted
in order, and the settled promise value — `none` when the promise never
settles (within the retry fuel), `Except.error` when it rejects. -/
structure Run where
  attempts : List Nat
  result : Option (Except String Outcome)
deriving DecidableEq, Repr

/-- `const nonce = lastNonce + 1 || await web3.eth.getTransactionCount(address)`:
a retry advances the last attempted nonce, a fresh request queries the
account's transaction count. -/
def nonceOf (w : World) : Option Nat → Nat
  | some n => n + 1
  | none => w.txCount

/-- Process the transport events of one attempt in arrival order, with the
`txHash` variable threaded through. `retryRun` is the run of the recursive
`sendTransaction(methodName, params, nonce, immediate)` a transient error
resolves with; `pollFuel` bounds the polling fallback. The promise settles at
the first resolving or rejecting action. -/
def runEvents (imm : Bool) (retryRun : Run)
    (recs : Option String → Nat → Option Receipt) (pollFuel : Nat) :
    List Ev → Option String → Run
  | [], _ => ⟨[], none⟩
  | Ev.txHash h :: rest, _ =>
    if imm then ⟨[], some (Except.ok (Outcome.hash h))⟩
    else runEvents imm retryRun recs pollFuel rest (some h)
  | Ev.error e :: _, th =>
    if isTimeoutErr e then
      ⟨[], (pollTx (recs th) pollFuel).map (fun r => Except.ok (Outcome.rcpt r))⟩
    else if isRetryableErr e then retryRun
    else ⟨[], some (Except.error e)⟩
  | Ev.rcpt r :: _, _ => ⟨[], some (Except.ok (Outcome.rcpt r))⟩

/-- `sendTransaction(methodName, params, lastNonce, immediate)`: compute the
nonce, build and submit the envelope, and settle on the transport's events;
`fuel` bounds the retry depth of this unrolling. -/
def sendTx (w : World) (cfg : Config) (m : String) (ps : List String) (imm : Bool) :
    Nat → Option Nat → Run
  | 0, ln =>
    let nonce := nonceOf w ln
    let r := runEvents imm ⟨[], none⟩ w.receipts 0
      (w.transport (buildTx cfg m ps nonce)) none
    ⟨nonce :: r.attempts, r.result⟩
  | fuel + 1, ln =>
    let nonce := nonceOf w ln
    let r := runEvents imm (sendTx w cfg m ps imm fuel (some nonce)) w.receipts (fuel + 1)
      (w.transport (buildTx cfg m ps nonce)) none
    ⟨nonce :: r.attempts, r.result⟩

/-! ### The contract and log decoding

The `ProofOfExistence` contract stores a mapping from hash to boolean;
`notarize` sets it and emits `OnNotarize(dataHash)`, `verify` reads it and
emits `OnVerify(dataHash, notarized)`. `abiDecoder.decodeLogs` decodes the
raw logs against this declared interface. -/

/-- The ledger-side `proofs` mapping of the contract, default `false`. -/
def ProofState := String → Bool

/-- The events the contract ABI declares and `abi-decoder` knows. -/
def abiEvents : List String := ["OnNotarize", "OnVerify"]

/-- Execute `notarize(dataHash)`: set the mapping and emit `OnNotarize`. -/
def contractNotarize (st : ProofState) (dataHash : String) : ProofState × ReceiptLog :=
  (fun k => if k == dataHash then true else st k,
   ⟨"OnNotarize", [("dataHash", EthVal.str dataHash)]⟩)

/-- Execute `verify(dataHash)`: read the mapping and emit `OnVerify`. -/
def contractVerify (st : ProofState) (dataHash : String) : Bool × ReceiptLog :=
  (st dataHash,
   ⟨"OnVerify", [("dataHash", EthVal.str dataHash), ("notarized", EthVal.boolean (st dataHash))]⟩)

/-- A decoded log parameter as `abi-decoder` returns it. -/
structure DecodedParam where
  name : String
  value : EthVal
deriving DecidableEq, Repr

/-- A decoded log as `abi-decoder` returns it: the event name and its
parameter list (the `events` field). -/
structure DecodedLog where
  name : String
  events : List DecodedParam
deriving DecidableEq, Repr

/-- `abiDecoder.decodeLogs(logs)`: decode each log the ABI declares into its
event name and parameters. -/
def decodeLogs (logs : List ReceiptLog) : List DecodedLog :=
  (logs.filter (fun l => abiEvents.contains l.eventName)).map
    (fun l => ⟨l.eventName, l.args.map (fun p => ⟨p.1, p.2⟩)⟩)

/-! ### The HTTP handlers

`notarize` and `verify` in `src/src/main.js`. Each reads the caller-supplied
value and computes its digest before the try/catch; only the engine call and
the subsequent decoding are inside it. The result is
`Except.error` for an exception the handler does not catch (thrown before the
try), `Except.ok none` for a handler that never sends a response (the engine
promise never settles), and `Except.ok (some resp)` for a sent response. -/

/-- A request: the JSON body's `value` (for `POST /notarize`) and the query
string's `value` (for `GET /verify`); `none` is an absent value, on which the
digest computation throws. -/
structure Req where
  bodyValue : Option String
  queryValue : Option String

/-- A response the handlers send. -/
inductive HResp where
  | sentOutcome (o : Outcome)
  | sentVerify (notarized : EthVal) (txHash : String)
  | serverError (e : String)
deriving DecidableEq, Repr

/-- The TypeError `shajs(...).update(undefined)` throws when the request
carries no value; it is raised before the try/catch. -/
def undefinedValueError : String := "TypeError: value must be a string or a buffer"

/-- The TypeError thrown inside the try block when the receipt's logs cannot
be decoded to the expected shape. -/
def decodeLogsError : String := "TypeError: cannot read decoded log entries"

/-- The `notarize` handler: digest the body value, call
`sendTransaction('notarize', [valueHash], undefined, true)`, send the
resolved value, or send a 500 with the error the engine rejected with. -/
def notarizeHandler (w : World) (cfg : Config) (fuel : Nat) (req : Req) :
    Except String (Option HResp) :=
  match req.bodyValue with
  | none => Except.error undefinedValueError
  | some value =>
    let valueHash := notarizeDigest value
    match (sendTx w cfg "notarize" [valueHash] true fuel none).result with
    | none => Except.ok none
    | some (Except.error e) => Except.ok (some (HResp.serverError e))
    | some (Except.ok o) => Except.ok (some (HResp.sentOutcome o))

/-- The `verify` handler: digest the query value, call
`sendTransaction('verify', [valueHash])` (no early resolution), decode
`decodeLogs(receipt.logs)[0].events[1].value`, and send it with the
receipt's transaction hash, or send a 500 with the caught error. -/
def verifyHandler (w : World) (cfg : Config) (fuel : Nat) (req : Req) :
    Except String (Option HResp) :=
  match req.queryValue with
  | none => Except.error undefinedValueError
  | some value =>
    let valueHash := verifyDigest value
    match (sendTx w cfg "verify" [valueHash] false fuel none).result with
    | none => Except.ok none
    | some (Except.error e) => Except.ok (some (HResp.serverError e))
    | some (Except.ok (Outcome.hash _)) => Except.ok (some (HResp.serverError decodeLogsError))
    | some (Except.ok (Outcome.rcpt r)) =>
      match (decodeLogs r.logs).head? with
      | none => Except.ok (some (HResp.serverError decodeLogsError))
      | some d =>
        match d.events[1]? with
        | none => Except.ok (some (HResp.serverError decodeLogsError))
        | some p => Except.ok (some (HResp.sentVerify p.value r.transactionHash))

/-! ### Concrete instances

Concrete configurations and worlds, used to evaluate the theorems on closed
inputs. The transports inspect only the nonce of the submitted envelope. -/

/-- A configuration with a contract address set. -/
def exCfg : Config :=
  { contractAddress := some "0x58df3b0e6cbf1ae0691c51322252b6a3d52aa6f2"
    address := "0xb0447e3e270e5595c30074f8c101233fa02b427d"
    keyfile := "keyfile"
    password := "password"
    provider := "http://localhost:8545" }

/-- A configuration with no contract address configured. -/
def exCfgNoAddr : Config :=
  { contractAddress := none
    address := "0xb0447e3e270e5595c30074f8c101233fa02b427d"
    keyfile := "keyfile"
    password := "password"
    provider := "http://localhost:8545" }

/-- A world whose transport rejects nonce 5 as underpriced and mines nonce 6. -/
def exWorldRetry : World :=
  { txCount := 5
    transport := fun tx =>
      if tx.nonce == 5 then [Ev.error "replacement transaction underpriced"]
      else if tx.nonce == 6 then [Ev.rcpt ⟨"0xok", []⟩] else []
    receipts := fun _ _ => none }

/-- A world whose transport always fails fatally. -/
def exWorldFatal : World :=
  { txCount := 0
    transport := fun _ => [Ev.error "insufficient funds"]
    receipts := fun _ _ => none }

/-- A world whose transport emits the receipt before the hash. -/
def exWorldOutOfOrder : World :=
  { txCount := 0
    transport := fun _ => [Ev.rcpt ⟨"0xr", []⟩, Ev.txHash "0xabc"]
    receipts := fun _ _ => none }

/-- A world whose transport assigns a hash and then a receipt. -/
def exWorldHashFirst : World :=
  { txCount := 0
    transport := fun _ => [Ev.txHash "0xabc", Ev.rcpt ⟨"0xr", []⟩]
    receipts := fun _ _ => none }

/-- A world whose transport assigns a hash and then times out; the receipt
for that hash appears at the third poll tick. -/
def exWorldTimeout : World :=
  { txCount := 0
    transport := fun _ =>
      [Ev.txHash "0xslow", Ev.error "Transaction was not mined within 50 blocks"]
    receipts := fun h t =>
      if h == some "0xslow" && t == 2 then some ⟨"0xslow", []⟩ else none }

/-- A world whose transport times out before any hash was assigned; no
receipt ever exists for an undefined hash. -/
def exWorldTimeoutNoHash : World :=
  { txCount := 0
    transport := fun _ => [Ev.error "Transaction was not mined within 50 blocks"]
    receipts := fun h t =>
      if h == some "0xslow" && t == 2 then some ⟨"0xslow", []⟩ else none }

/-- A world whose transport mines every submission and answers `verify` with
the contract's `OnVerify` log over an empty proof state. -/
def exWorldVerify : World :=
  { txCount := 0
    transport := fun _ =>
      [Ev.rcpt ⟨"0xmined", [(contractVerify (fun _ => false) (verifyDigest "hello")).2]⟩]
    receipts := fun _ _ => none }

/-- An environment with only `ETH_ADDRESS` set. -/
def exEnvMissing : String → Option String :=
  fun k => if k == "ETH_ADDRESS" then some "0xme" else none

/-! ### Helper lemmas about the engine -/

/-- A run over events either attempts no further submission or is exactly the
retry run. -/
theorem runEvents_cases (imm : Bool) (retryRun : Run)
    (recs : Option String → Nat → Option Receipt) (pollFuel : Nat) :
    ∀ evs th, (runEvents imm retryRun recs pollFuel evs th).attempts = [] ∨
      runEvents imm retryRun recs pollFuel evs th = retryRun := by
  intro evs
  induction evs with
  | nil => intro th; left; rfl
  | cons ev rest ih =>
    intro th
    cases ev with
    | txHash h =>
      cases himm : imm with
      | true => left; simp [runEvents, himm]
      | false => simpa [runEvents, himm] using ih (some h)
    | error e =>
      cases ht : isTimeoutErr e with
      | true => left; simp [runEvents, ht]
      | false =>
        cases hr : isRetryableErr e with
        | true => right; simp [runEvents, ht, hr]
        | false => left; simp [runEvents, ht, hr]
    | rcpt r => left; simp [runEvents]

/-- Every nonce a request attempts is at least the nonce of its first
attempt: retries make strictly forward nonce progress. -/
theorem sendTx_attempts_ge (w : World) (cfg : Config) (m : String) (ps : List String)
    (imm : Bool) :
    ∀ fuel ln x, x ∈ (sendTx w cfg m ps imm fuel ln).attempts → nonceOf w ln ≤ x := by
  intro fuel
  induction fuel with
  | zero =>
    intro ln x hx
    simp only [sendTx] at hx
    rcases runEvents_cases imm ⟨[], none⟩ w.receipts 0
        (w.transport (buildTx cfg m ps (nonceOf w ln))) none with hc | hc
    · rw [hc] at hx
      simp at hx
      omega
    · rw [hc] at hx
      simp at hx
      omega
  | succ f ih =>
    intro ln x hx
    simp only [sendTx] at hx
    rcases runEvents_cases imm (sendTx w cfg m ps imm f (some (nonceOf w ln))) w.receipts (f + 1)
        (w.transport (buildTx cfg m ps (nonceOf w ln))) none with hc | hc
    · rw [hc] at hx
      simp at hx
      omega
    · rw [hc] at hx
      rcases List.mem_cons.mp hx with h1 | h1
      · omega
      · have h2 := ih (some (nonceOf w ln)) x h1
        have h3 : nonceOf w (some (nonceOf w ln)) = nonceOf w ln + 1 := rfl
        omega

/-- A first event that is a fatal error rejects the promise with that error
after the single attempt. -/
theorem sendTx_fatal (w : World) (cfg : Config) (m : String) (ps : List String)
    (imm : Bool) (fuel : Nat) (ln : Option Nat) (e : String) (rest : List Ev)
    (hev : w.transport (buildTx cfg m ps (nonceOf w ln)) = Ev.error e :: rest)
    (ht : isTimeoutErr e = false) (hr : isRetryableErr e = false) :
    sendTx w cfg m ps imm fuel ln = ⟨[nonceOf w ln], some (Except.error e)⟩ := by
  cases fuel <;> simp [sendTx, hev, runEvents, ht, hr]

/-- With early resolution, a first event assigning the hash resolves the
promise with just that hash, whatever arrives afterwards. -/
theorem sendTx_hash_first (w : World) (cfg : Config) (m : String) (ps : List String)
    (fuel : Nat) (ln : Option Nat) (h : String) (rest : List Ev)
    (hev : w.transport (buildTx cfg m ps (nonceOf w ln)) = Ev.txHash h :: rest) :
    sendTx w cfg m ps true fuel ln = ⟨[nonceOf w ln], some (Except.ok (Outcome.hash h))⟩ := by
  cases fuel <;> simp [sendTx, hev, runEvents]

/-- A first event delivering the receipt resolves the promise with it. -/
theorem sendTx_rcpt_first (w : World) (cfg : Config) (m : String) (ps : List String)
    (imm : Bool) (fuel : Nat) (ln : Option Nat) (r : Receipt) (rest : List Ev)
    (hev : w.transport (buildTx cfg m ps (nonceOf w ln)) = Ev.rcpt r :: rest) :
    sendTx w cfg m ps imm fuel ln = ⟨[nonceOf w ln], some (Except.ok (Outcome.rcpt r))⟩ := by
  cases fuel <;> simp [sendTx, hev, runEvents]

/-- A first event that is a transient error resolves the whole request with
the retry at the incremented nonce, same method name and arguments. -/
theorem sendTx_retry_step (w : World) (cfg : Config) (m : String) (ps : List String)
    (imm : Bool) (fuel : Nat) (ln : Option Nat) (e : String) (rest : List Ev)
    (hev : w.transport (buildTx cfg m ps (nonceOf w ln)) = Ev.error e :: rest)
    (ht : isTimeoutErr e = false) (hr : isRetryableErr e = true) :
    sendTx w cfg m ps imm (fuel + 1) ln =
      ⟨nonceOf w ln :: (sendTx w cfg m ps imm fuel (some (nonceOf w ln))).attempts,
       (sendTx w cfg m ps imm fuel (some (nonceOf w ln))).result⟩ := by
  simp [sendTx, hev, runEvents, ht, hr]

/-- A hash assignment followed by the timeout error (no early resolution)
resolves with the polling fallback over that hash. -/
theorem sendTx_timeout_after_hash (w : World) (cfg : Config) (m : String) (ps : List String)
    (fuel : Nat) (ln : Option Nat) (h : String) (e : String) (rest : List Ev)
    (hev : w.transport (buildTx cfg m ps (nonceOf w ln)) = Ev.txHash h :: Ev.error e :: rest)
    (ht : isTimeoutErr e = true) :
    sendTx w cfg m ps false fuel ln =
      ⟨[nonceOf w ln],
       (pollTx (w.receipts (some h)) fuel).map (fun r => Except.ok (Outcome.rcpt r))⟩ := by
  cases fuel <;> simp [sendTx, hev, runEvents, ht, pollTx]

/-- The timeout error before any hash assignment starts the polling fallback
over the undefined hash. -/
theorem sendTx_timeout_no_hash (w : World) (cfg : Config) (m : String) (ps : List String)
    (imm : Bool) (fuel : Nat) (ln : Option Nat) (e : String) (rest : List Ev)
    (hev : w.transport (buildTx cfg m ps (nonceOf w ln)) = Ev.error e :: rest)
    (ht : isTimeoutErr e = true) :
    sendTx w cfg m ps imm fuel ln =
      ⟨[nonceOf w ln],
       (pollTx (w.receipts none) fuel).map (fun r => Except.ok (Outcome.rcpt r))⟩ := by
  cases fuel <;> simp [sendTx, hev, runEvents, ht, pollTx]

/-- An oracle with no receipt at any tick makes the poll loop run forever:
no amount of fuel resolves it. -/
theorem pollTxTimed_eq_none (oracle : Nat → Option Receipt)
    (h : ∀ t, oracle t = none) :
    ∀ fuel start, pollTxTimed oracle start fuel = none := by
  intro fuel
  induction fuel with
  | zero => intro start; rfl
  | succ f ih => intro start; simp [pollTxTimed, h start, ih]

/-- The poll loop resolves with the first non-null receipt, after one fixed
interval per empty tick before it. -/
theorem pollTxTimed_first (oracle : Nat → Option Receipt) (r : Receipt) :
    ∀ k start fuel, k < fuel → oracle (start + k) = some r →
      (∀ j, j < k → oracle (start + j) = none) →
      pollTxTimed oracle start fuel = some (r, pollIntervalMs * (start + k)) := by
  intro k
  induction k with
  | zero =>
    intro start fuel hf hk _
    cases fuel with
    | zero => omega
    | succ f =>
      rw [Nat.add_zero] at hk
      simp [pollTxTimed, hk]
  | succ k ih =>
    intro start fuel hf hk hj
    cases fuel with
    | zero => omega
    | succ f =>
      have h0 : oracle start = none := by
        have := hj 0 (by omega)
        simpa using this
      have hk' : oracle (start + 1 + k) = some r := by
        have : start + (k + 1) = start + 1 + k := by omega
        rwa [this] at hk
      have hj' : ∀ j, j < k → oracle (start + 1 + j) = none := by
        intro j hjk
        have : start + 1 + j = start + (j + 1) := by omega
        rw [this]
        exact hj (j + 1) (by omega)
      have := ih (start + 1) f (by omega) hk' hj'
      have heq : start + 1 + k = start + (k + 1) := by omega
      rw [heq] at this
      simpa [pollTxTimed, h0] using this

/-! ### Helper lemmas about the digest -/

/-- Every hex digit is one of the sixteen hex characters. -/
theorem hexDigit_mem (n : Nat) : hexDigit n ∈ hexChars := by
  have h16 : n % 16 < 16 := Nat.mod_lt _ (by omega)
  unfold hexDigit
  generalize n % 16 = i at h16 ⊢
  interval_cases i <;> decide

/-- The hex rendering of one word has eight characters. -/
theorem hexWordChars_length (w : Nat) : (hexWordChars w).length = 8 := by
  simp [hexWordChars]

/-- Every character of the hex rendering of one word is a hex character. -/
theorem hexWordChars_mem (w : Nat) : ∀ c ∈ hexWordChars w, c ∈ hexChars := by
  intro c hc
  simp [hexWordChars] at hc
  obtain ⟨i, _, rfl⟩ := hc
  exact hexDigit_mem _

/-- The hex digest of any byte list has 64 characters. -/
theorem sha256Hex_length (msg : List Nat) : (sha256Hex msg).length = 64 := by
  simp [sha256Hex, String.length, hexWordChars_length]

/-- Every character of the hex digest is a hex character. -/
theorem sha256Hex_chars (msg : List Nat) : ∀ c ∈ (sha256Hex msg).data, c ∈ hexChars := by
  intro c hc
  simp only [sha256Hex, String.data] at hc
  simp only [List.mem_append] at hc
  rcases hc with ((((((h | h) | h) | h) | h) | h) | h) | h <;>
    exact hexWordChars_mem _ c h

/-! ### The claims -/

/-- C1: a fresh logical request derives its nonce from the account's current
transaction count; a transport error containing "known transaction" or
"underpriced" retries the whole submission with nonce `lastAttemptedNonce + 1`
and the same operation name and arguments; the failed nonce `N` is attempted
exactly once and never reused (every nonce of a retry run is strictly above
the last attempted one), and the logical request completes with the result of
the attempt at nonce `N + 1`. -/
theorem c1_nonce_retry_protocol (w : World) (cfg : Config) (m : String) (ps : List String)
    (imm : Bool) (fuel : Nat) (e : String) (r : Receipt) (rest rest2 : List Ev)
    (hN : w.transport (buildTx cfg m ps w.txCount) = Ev.error e :: rest)
    (ht : isTimeoutErr e = false) (hr : isRetryableErr e = true)
    (hN1 : w.transport (buildTx cfg m ps (w.txCount + 1)) = Ev.rcpt r :: rest2) :
    nonceOf w none = w.txCount ∧
    (∀ n, nonceOf w (some n) = n + 1) ∧
    sendTx w cfg m ps imm (fuel + 1) none =
      ⟨[w.txCount, w.txCount + 1], some (Except.ok (Outcome.rcpt r))⟩ ∧
    (∀ fuel2 n, n ∉ (sendTx w cfg m ps imm fuel2 (some n)).attempts) := by
  refine ⟨rfl, fun n => rfl, ?_, ?_⟩
  · have hstep := sendTx_retry_step w cfg m ps imm fuel none e rest
      (by simpa [nonceOf] using hN) ht hr
    have hinner := sendTx_rcpt_first w cfg m ps imm fuel (some w.txCount) r rest2
      (by simpa [nonceOf] using hN1)
    have hln : nonceOf w none = w.txCount := rfl
    rw [hln] at hstep
    rw [hinner] at hstep
    simpa using hstep
  · intro fuel2 n hmem
    have h1 := sendTx_attempts_ge w cfg m ps imm fuel2 (some n) n hmem
    have h2 : nonceOf w (some n) = n + 1 := rfl
    omega

/-- C2: a transport error containing neither the retry patterns nor the
timeout pattern rejects the logical request with the error text unmodified,
after exactly the one submission attempt. -/
theorem c2_fatal_propagation (w : World) (cfg : Config) (m : String) (ps : List String)
    (imm : Bool) (fuel : Nat) (ln : Option Nat) (e : String) (rest : List Ev)
    (hev : w.transport (buildTx cfg m ps (nonceOf w ln)) = Ev.error e :: rest)
    (ht : isTimeoutErr e = false) (hr : isRetryableErr e = false) :
    sendTx w cfg m ps imm fuel ln = ⟨[nonceOf w ln], some (Except.error e)⟩ ∧
    (sendTx w cfg m ps imm fuel ln).attempts.length = 1 := by
  have h := sendTx_fatal w cfg m ps imm fuel ln e rest hev ht hr
  exact ⟨h, by rw [h]; rfl⟩

/-- C3, as stated, is false: with `resolveEarly = true` and the receipt event
arriving before the hash-assigned event, the promise has already settled with
the receipt, not with the transaction hash. Concretely, against a transport
that emits the receipt first, the engine resolves with the receipt. -/
theorem c3_counterexample :
    (sendTx exWorldOutOfOrder exCfg "notarize" ["deadbeef"] true 1 none).result =
      some (Except.ok (Outcome.rcpt ⟨"0xr", []⟩)) ∧
    (sendTx exWorldOutOfOrder exCfg "notarize" ["deadbeef"] true 1 none).result ≠
      some (Except.ok (Outcome.hash "0xabc")) := by
  decide

/-- C3 (amended): with `resolveEarly = true`, if the hash-assigned event is
the first to arrive the engine resolves with just the transaction hash,
without waiting for the receipt event; the `notarize` facade invokes the
engine with `resolveEarly = true` and sends that hash to its caller; and if a
receipt event arrived before the hash, the engine has already resolved with
that receipt (so the result is available by the time the hash fires either
way). -/
theorem c3_early_resolution (w : World) (cfg : Config) (m : String) (ps : List String)
    (fuel : Nat) :
    (∀ h rest, w.transport (buildTx cfg m ps w.txCount) = Ev.txHash h :: rest →
      sendTx w cfg m ps true fuel none =
        ⟨[w.txCount], some (Except.ok (Outcome.hash h))⟩) ∧
    (∀ v q h rest,
      w.transport (buildTx cfg "notarize" [notarizeDigest v] w.txCount) = Ev.txHash h :: rest →
      notarizeHandler w cfg fuel ⟨some v, q⟩ =
        Except.ok (some (HResp.sentOutcome (Outcome.hash h)))) ∧
    (∀ imm r rest, w.transport (buildTx cfg m ps w.txCount) = Ev.rcpt r :: rest →
      sendTx w cfg m ps imm fuel none =
        ⟨[w.txCount], some (Except.ok (Outcome.rcpt r))⟩) := by
  refine ⟨?_, ?_, ?_⟩
  · intro h rest hev
    simpa [nonceOf] using sendTx_hash_first w cfg m ps fuel none h rest
      (by simpa [nonceOf] using hev)
  · intro v q h rest hev
    have hrun := sendTx_hash_first w cfg "notarize" [notarizeDigest v] fuel none h rest
      (by simpa [nonceOf] using hev)
    simp [notarizeHandler, hrun]
  · intro imm r rest hev
    simpa [nonceOf] using sendTx_rcpt_first w cfg m ps imm fuel none r rest
      (by simpa [nonceOf] using hev)

/-- C4, as stated, is false in its recipient clause: the recipient is absent
exactly when no contract address is configured, not exactly for a deploy
operation. Concretely, `notarize` is not a deploy, yet with no configured
contract address its envelope has no recipient. -/
theorem c4_counterexample :
    (buildTx exCfgNoAddr "notarize" ["ab"] 0).toAddr = none ∧
    isDeploy "notarize" = false := by
  decide

/-- C4 (amended): across attempts of one logical request only the nonce field
of the envelope varies — the encoded call data, the fixed gas limit 400000,
the fixed gas price 20000000000 and the recipient are identical — and the
recipient equals the configured contract address (absent exactly when no
non-empty contract address is configured, for any operation). -/
theorem c4_frame_condition (cfg : Config) (m : String) (ps : List String) (n1 n2 : Nat) :
    (buildTx cfg m ps n1).data = (buildTx cfg m ps n2).data ∧
    (buildTx cfg m ps n1).gasLimit = 400000 ∧
    (buildTx cfg m ps n1).gasPrice = 20000000000 ∧
    (buildTx cfg m ps n1).toAddr = (buildTx cfg m ps n2).toAddr ∧
    (buildTx cfg m ps n1).toAddr = contractOptionAddress cfg.contractAddress ∧
    (buildTx cfg m ps n1).nonce = n1 ∧
    ((buildTx cfg m ps n1).toAddr = none ↔
      contractOptionAddress cfg.contractAddress = none) := by
  simp [buildTx]

/-- C5: when the timeout error fires after a hash was assigned, the engine
falls back to active polling over that hash: the receipt query runs at ticks
a fixed 1000 ms apart, resolves with the first non-null receipt, and an
oracle that never returns a receipt is polled forever — no fuel bound makes
it give up with a different answer. -/
theorem c5_polling_fallback (w : World) (cfg : Config) (m : String) (ps : List String)
    (fuel : Nat) (ln : Option Nat) (h : String) (e : String) (rest : List Ev)
    (k : Nat) (r : Receipt)
    (hev : w.transport (buildTx cfg m ps (nonceOf w ln)) = Ev.txHash h :: Ev.error e :: rest)
    (ht : isTimeoutErr e = true)
    (hk : w.receipts (some h) k = some r)
    (hbefore : ∀ j, j < k → w.receipts (some h) j = none)
    (hfuel : k < fuel) :
    sendTx w cfg m ps false fuel ln = ⟨[nonceOf w ln], some (Except.ok (Outcome.rcpt r))⟩ ∧
    pollTxTimed (w.receipts (some h)) 0 fuel = some (r, pollIntervalMs * k) ∧
    pollIntervalMs = 1000 ∧
    (∀ oracle : Nat → Option Receipt, (∀ t, oracle t = none) →
      ∀ f2, pollTx oracle f2 = none) := by
  have hpoll : pollTxTimed (w.receipts (some h)) 0 fuel = some (r, pollIntervalMs * k) := by
    have := pollTxTimed_first (w.receipts (some h)) r k 0 fuel hfuel
      (by simpa using hk) (by simpa using hbefore)
    simpa using this
  refine ⟨?_, hpoll, rfl, ?_⟩
  · have hrun := sendTx_timeout_after_hash w cfg m ps fuel ln h e rest hev ht
    rw [hrun]
    simp [pollTx, hpoll]
  · intro oracle hnone f2
    simp [pollTx, pollTxTimed_eq_none oracle hnone]

/-- C6: for every text, the `verify` handler computes the digest, calls the
engine with operation name "verify" and no early resolution, waits for the
full receipt, decodes the receipt's logs against the contract interface
(`decodeLogs(receipt.logs)[0].events[1].value`, the `notarized` boolean
emitted by the contract's `OnVerify` event), and responds with that boolean
and the receipt's transaction hash. -/
theorem c6_check_result (w : World) (cfg : Config) (fuel : Nat) (st : ProofState)
    (value txh : String) (rest : List Ev) (b : Option String)
    (hev : w.transport (buildTx cfg "verify" [verifyDigest value] w.txCount) =
      Ev.rcpt ⟨txh, [(contractVerify st (verifyDigest value)).2]⟩ :: rest) :
    verifyHandler w cfg fuel ⟨b, some value⟩ =
      Except.ok (some (HResp.sentVerify (EthVal.boolean (st (verifyDigest value))) txh)) := by
  have hrun := sendTx_rcpt_first w cfg "verify" [verifyDigest value] false fuel none
    ⟨txh, [(contractVerify st (verifyDigest value)).2]⟩ rest (by simpa [nonceOf] using hev)
  simp [verifyHandler, hrun, decodeLogs, contractVerify, abiEvents]

/-- C7: the digest function is deterministic, always a 64-character string of
lowercase hex characters (the 256-bit SHA-2 digest), and the `notarize` and
`verify` handlers apply the same digest function, so Store and Check operate
on the same digest value for the same text; injectivity is not claimed. -/
theorem c7_digest_function :
    (∀ t1 t2 : String, t1 = t2 → notarizeDigest t1 = notarizeDigest t2) ∧
    (∀ t : String, (notarizeDigest t).length = 64) ∧
    (∀ t : String, ∀ c ∈ (notarizeDigest t).data, c ∈ hexChars) ∧
    (∀ t : String, notarizeDigest t = verifyDigest t) := by
  refine ⟨fun t1 t2 h => by rw [h], fun t => sha256Hex_length _, ?_, fun t => rfl⟩
  intro t c hc
  exact sha256Hex_chars _ c hc

/-- C8: when any required environment variable is missing at startup, the
program fails before serving with one combined error whose message joins
every missing required name, and every missing required name is in that
list. -/
theorem c8_config_fail_fast (env : String → Option String) (task : String)
    (hm : missingEnvKeys env ≠ []) :
    parseEnv env = Except.error
      (String.intercalate ", " (missingEnvKeys env) ++ " environment variables must be set") ∧
    (∀ k, k ∈ requiredEnvKeys → envTruthy (env k) = false → k ∈ missingEnvKeys env) ∧
    boot env task = Except.error
      (String.intercalate ", " (missingEnvKeys env) ++ " environment variables must be set") := by
  have h1 : parseEnv env = Except.error
      (String.intercalate ", " (missingEnvKeys env) ++ " environment variables must be set") := by
    cases hmk : missingEnvKeys env with
    | nil => exact absurd hmk hm
    | cons a l => simp [parseEnv, hmk]
  refine ⟨h1, ?_, ?_⟩
  · intro k hk hf
    simp [missingEnvKeys, List.mem_filter, hk, hf]
  · simp [boot, h1, Except.map]

/-- C9: the timeout branch hands the hash captured from the hash-assigned
event to the receipt poller; when the timeout error arrives before any hash
event the poller is started over the undefined hash, and if the RPC has no
receipt for the undefined hash at any tick, no amount of fuel settles the
submission promise. -/
theorem c9_timeout_without_hash (w : World) (cfg : Config) (m : String) (ps : List String)
    (e : String)
    (ht : isTimeoutErr e = true)
    (hnone : ∀ t, w.receipts none t = none) :
    (∀ imm fuel rest, w.transport (buildTx cfg m ps w.txCount) = Ev.error e :: rest →
      (sendTx w cfg m ps imm fuel none).result = none) ∧
    (∀ fuel h rest,
      w.transport (buildTx cfg m ps w.txCount) = Ev.txHash h :: Ev.error e :: rest →
      (sendTx w cfg m ps false fuel none).result =
        (pollTx (w.receipts (some h)) fuel).map (fun rc => Except.ok (Outcome.rcpt rc))) := by
  constructor
  · intro imm fuel rest hev
    have hrun := sendTx_timeout_no_hash w cfg m ps imm fuel none e rest
      (by simpa [nonceOf] using hev) ht
    rw [hrun]
    simp [pollTx, pollTxTimed_eq_none (w.receipts none) hnone]
  · intro fuel h rest hev
    have hrun := sendTx_timeout_after_hash w cfg m ps fuel none h e rest
      (by simpa [nonceOf] using hev) ht
    rw [hrun]

/-- C10: both handlers read the caller-supplied value and compute its digest
before the try/catch, so a request with a missing value raises the TypeError
uncaught rather than sending the 500 server-error response; the raises-iff-500
mapping covers failures of the engine call (a fatal engine error becomes the
500 response carrying the raw error). -/
theorem c10_handler_error_scope (w : World) (cfg : Config) (fuel : Nat)
    (b q : Option String) :
    notarizeHandler w cfg fuel ⟨none, q⟩ = Except.error undefinedValueError ∧
    (∀ s, notarizeHandler w cfg fuel ⟨none, q⟩ ≠ Except.ok (some (HResp.serverError s))) ∧
    verifyHandler w cfg fuel ⟨b, none⟩ = Except.error undefinedValueError ∧
    (∀ s, verifyHandler w cfg fuel ⟨b, none⟩ ≠ Except.ok (some (HResp.serverError s))) ∧
    (∀ v e rest,
      w.transport (buildTx cfg "notarize" [notarizeDigest v] w.txCount) = Ev.error e :: rest →
      isTimeoutErr e = false → isRetryableErr e = false →
      notarizeHandler w cfg fuel ⟨some v, q⟩ =
        Except.ok (some (HResp.serverError e))) := by
  refine ⟨rfl, ?_, rfl, ?_, ?_⟩
  · intro s
    simp [notarizeHandler]
  · intro s
    simp [verifyHandler]
  · intro v e rest hev ht hr
    have hrun := sendTx_fatal w cfg "notarize" [notarizeDigest v] true fuel none e rest
      (by simpa [nonceOf] using hev) ht hr
    simp [notarizeHandler, hrun]

/-! ### Witnesses: the claims evaluated at concrete inputs -/

/-- C1 at the concrete retry world: an underpriced error on nonce 5 completes
with nonce 6's receipt, and nonce 5 is never attempted by the retry. -/
theorem c1_witness :
    sendTx exWorldRetry exCfg "notarize" ["deadbeef"] true 3 none =
      ⟨[5, 6], some (Except.ok (Outcome.rcpt ⟨"0xok", []⟩))⟩ ∧
    5 ∉ (sendTx exWorldRetry exCfg "notarize" ["deadbeef"] true 2 (some 5)).attempts := by
  have h := c1_nonce_retry_protocol exWorldRetry exCfg "notarize" ["deadbeef"] true 2
    "replacement transaction underpriced" ⟨"0xok", []⟩ [] []
    (by decide) (by decide) (by decide) (by decide)
  exact ⟨h.2.2.1, h.2.2.2 2 5⟩

/-- C2 at the concrete fatal world: "insufficient funds" rejects the request
unmodified after one attempt. -/
theorem c2_witness :
    sendTx exWorldFatal exCfg "notarize" ["deadbeef"] true 4 none =
      ⟨[0], some (Except.error "insufficient funds")⟩ ∧
    (sendTx exWorldFatal exCfg "notarize" ["deadbeef"] true 4 none).attempts.length = 1 := by
  have h := c2_fatal_propagation exWorldFatal exCfg "notarize" ["deadbeef"] true 4 none
    "insufficient funds" [] (by decide) (by decide) (by decide)
  exact ⟨h.1, h.2⟩

/-- C3 (amended) at concrete worlds: hash-first resolves with the hash and
the store handler sends it; receipt-first has already resolved with the
receipt. -/
theorem c3_witness :
    sendTx exWorldHashFirst exCfg "notarize" ["deadbeef"] true 1 none =
      ⟨[0], some (Except.ok (Outcome.hash "0xabc"))⟩ ∧
    notarizeHandler exWorldHashFirst exCfg 1 ⟨some "hello", none⟩ =
      Except.ok (some (HResp.sentOutcome (Outcome.hash "0xabc"))) ∧
    sendTx exWorldOutOfOrder exCfg "notarize" ["deadbeef"] false 1 none =
      ⟨[0], some (Except.ok (Outcome.rcpt ⟨"0xr", []⟩))⟩ := by
  refine ⟨(c3_early_resolution exWorldHashFirst exCfg "notarize" ["deadbeef"] 1).1
      "0xabc" [Ev.rcpt ⟨"0xr", []⟩] (by decide),
    (c3_early_resolution exWorldHashFirst exCfg "notarize" ["deadbeef"] 1).2.1
      "hello" none "0xabc" [Ev.rcpt ⟨"0xr", []⟩] rfl,
    (c3_early_resolution exWorldOutOfOrder exCfg "notarize" ["deadbeef"] 1).2.2
      false ⟨"0xr", []⟩ [Ev.txHash "0xabc"] (by decide)⟩

/-- C5 at the concrete timeout world: the poll finds the receipt at tick 2,
after 2000 ms, and the engine resolves with it. -/
theorem c5_witness :
    sendTx exWorldTimeout exCfg "verify" ["deadbeef"] false 5 none =
      ⟨[0], some (Except.ok (Outcome.rcpt ⟨"0xslow", []⟩))⟩ ∧
    pollTxTimed (exWorldTimeout.receipts (some "0xslow")) 0 5 =
      some (⟨"0xslow", []⟩, 2000) ∧
    pollIntervalMs = 1000 := by
  have h := c5_polling_fallback exWorldTimeout exCfg "verify" ["deadbeef"] 5 none
    "0xslow" "Transaction was not mined within 50 blocks" [] 2 ⟨"0xslow", []⟩
    (by decide) (by decide) (by decide) (by decide) (by decide)
  exact ⟨h.1, h.2.1, h.2.2.1⟩

/-- C6 at the concrete verify world: over an empty proof state the handler
responds with the decoded `false` and the mined transaction hash. -/
theorem c6_witness :
    verifyHandler exWorldVerify exCfg 1 ⟨none, some "hello"⟩ =
      Except.ok (some (HResp.sentVerify (EthVal.boolean false) "0xmined")) := by
  exact c6_check_result exWorldVerify exCfg 1 (fun _ => false) "hello" "0xmined" [] none rfl

set_option maxRecDepth 10000 in
/-- C7 at a concrete text: the digest of "hello" is the SHA-256 test vector,
64 characters long, and both handlers compute it alike. -/
theorem c7_witness :
    notarizeDigest "hello" =
      "2cf24dba5fb0a30e26e83b2ac5b9e29e1b161e5c1fa7425e73043362938b9824" ∧
    (notarizeDigest "hello").length = 64 ∧
    notarizeDigest "hello" = verifyDigest "hello" := by
  exact ⟨by decide, c7_digest_function.2.1 "hello", c7_digest_function.2.2.2 "hello"⟩

/-- C8 at the concrete environment with only `ETH_ADDRESS` set: startup fails
with the single combined message listing the three missing names. -/
theorem c8_witness :
    missingEnvKeys exEnvMissing = ["ETH_KEYFILE", "ETH_PASSWORD", "ETH_PROVIDER"] ∧
    parseEnv exEnvMissing = Except.error
      (String.intercalate ", " (missingEnvKeys exEnvMissing) ++
        " environment variables must be set") ∧
    boot exEnvMissing "serve" = Except.error
      (String.intercalate ", " (missingEnvKeys exEnvMissing) ++
        " environment variables must be set") := by
  have h := c8_config_fail_fast exEnvMissing "serve" (by decide)
  exact ⟨by decide, h.1, h.2.2⟩

/-- C9 at the concrete no-hash timeout world: no fuel settles the promise. -/
theorem c9_witness :
    (sendTx exWorldTimeoutNoHash exCfg "notarize" ["deadbeef"] true 7 none).result = none := by
  exact (c9_timeout_without_hash exWorldTimeoutNoHash exCfg "notarize" ["deadbeef"]
    "Transaction was not mined within 50 blocks" (by decide) (fun t => rfl)).1 true 7 []
    (by decide)

/-- C10 at the concrete fatal world: a missing value raises the uncaught
TypeError in both handlers, while an engine failure becomes the 500 response
with the raw error. -/
theorem c10_witness :
    notarizeHandler exWorldFatal exCfg 1 ⟨none, none⟩ = Except.error undefinedValueError ∧
    verifyHandler exWorldFatal exCfg 1 ⟨none, none⟩ = Except.error undefinedValueError ∧
    notarizeHandler exWorldFatal exCfg 1 ⟨some "hello", none⟩ =
      Except.ok (some (HResp.serverError "insufficient funds")) := by
  have h := c10_handler_error_scope exWorldFatal exCfg 1 none none
  exact ⟨h.1, h.2.2.1, h.2.2.2.2 "hello" "insufficient funds" [] rfl (by decide) (by decide)⟩

end Melfina
